import Mathlib

/-!
# Verification of the noteful API's ownership-scoped CRUD layer

A shallow embedding of the Express route handlers in `src/routes/notes.js`,
`src/routes/folders.js` and the tags router (in `src/routes/users.js` bundle),
together with the MongoDB/mongoose store operations they invoke
(`find`, `findOne`, `findOneAndUpdate`, `findOneAndDelete`, `updateMany`,
`create`), modelled as pure functions over an explicit in-memory store.

Conventions of the embedding:
* Documents are Lean structures; a Mongo collection is a `List` of documents.
* `findOne`-style operations return the first document matching the filter
  (`findOneDoc`); `findOneAndDelete` removes the first match (`deleteFirst`);
  `findOneAndUpdate` rewrites the first match (`updateFirst`); `updateMany`
  rewrites every match (a `List.map` guarded by the filter).
* Request-body fields are `Option`-valued: `none` is an absent JSON field,
  `some ""` an explicit empty string.  JavaScript truthiness of a string
  field is `truthy` (only absent and `""` are falsy); a JavaScript array is
  always truthy (`jsTruthyArray`).
* A handler's outcome is a `RouteResult`: `json status body` for a
  `res.json`/`res.sendStatus` response, `errorOut status msg` for
  `next(err)` with an error object, and `missing` for a bare `next()`
  fall-through (which the application's final handler maps to 404, as the
  repository's tests demonstrate).
* `mongoose.Types.ObjectId.isValid` accepts 24-character hex strings and any
  12-character string (`isValidObjectId`).
-/

namespace Noteful

abbrev Id := String

/-- A `Note` document: `src` routes read/write `title`, `content`,
`folderId` (optional reference), `tags` (list of tag ids), `userId`,
plus mongoose timestamps. A note without a stored `content` path is
represented by `content = ""`. -/
structure Note where
  id : Id
  title : String
  content : String
  folderId : Option Id
  tags : List Id
  userId : Id
  createdAt : Nat
  updatedAt : Nat
deriving Repr, DecidableEq

/-- A `Folder` document (`name`, `userId`, timestamps). -/
structure Folder where
  id : Id
  name : String
  userId : Id
  createdAt : Nat
  updatedAt : Nat
deriving Repr, DecidableEq

/-- A `Tag` document (`name`, `userId`, timestamps). -/
structure Tag where
  id : Id
  name : String
  userId : Id
  createdAt : Nat
  updatedAt : Nat
deriving Repr, DecidableEq

/-- The entity store: the three Mongo collections the routes touch. -/
structure Store where
  notes : List Note
  folders : List Folder
  tags : List Tag
deriving Repr, DecidableEq

/-- Well-formedness Mongo guarantees for any reachable store: `_id` values
are unique within each collection (the `_id` primary-key index). -/
def Store.wf (s : Store) : Prop :=
  (s.notes.map Note.id).Nodup ∧ (s.folders.map Folder.id).Nodup ∧
    (s.tags.map Tag.id).Nodup

instance (s : Store) : Decidable s.wf := by
  unfold Store.wf; infer_instance

/-- Mongo `findOne`: first document matching the filter. -/
def findOneDoc {α : Type} (p : α → Bool) : List α → Option α
  | [] => none
  | x :: xs => if p x then some x else findOneDoc p xs

/-- Mongo `findOneAndDelete`: remove the first document matching the filter. -/
def deleteFirst {α : Type} (p : α → Bool) : List α → List α
  | [] => []
  | x :: xs => if p x then xs else x :: deleteFirst p xs

/-- Mongo `findOneAndUpdate`: rewrite the first document matching the filter. -/
def updateFirst {α : Type} (p : α → Bool) (f : α → α) : List α → List α
  | [] => []
  | x :: xs => if p x then f x :: xs else x :: updateFirst p f xs

/-- JavaScript truthiness of an optional string field: `undefined` and the
empty string are falsy. -/
def truthy : Option String → Bool
  | none => false
  | some s => s != ""

/-- JavaScript truthiness of an array value: every array is truthy (this is
the semantics of `if (result)` when `result` came from `Model.find`). -/
def jsTruthyArray {α : Type} (_l : List α) : Bool := true

/-- `mongoose.Types.ObjectId.isValid`: a 24-character hexadecimal string or
any 12-character string. -/
def isValidObjectId (s : String) : Bool :=
  (s.length == 24 && s.toList.all (fun c =>
    c.isDigit || ('a' ≤ c && c ≤ 'f') || ('A' ≤ c && c ≤ 'F')))
  || s.length == 12

/-- Outcome of one route handler. `missing` is a bare `next()` fall-through,
which the application's final middleware turns into a 404 response. -/
inductive RouteResult (α : Type) where
  | json (status : Nat) (body : α)
  | errorOut (status : Nat) (msg : String)
  | missing
deriving Repr, DecidableEq

/-! ## The search regular expression

`notes.js` line 84 builds `new RegExp(searchTerm, 'i')` and puts it in a
Mongo `$or` filter over `title` and `content`.  Full JavaScript regular
expressions are not embedded; `reTest` models `re.test` only for the
fragment of patterns whose characters are literals or the dot
metacharacter (`.` matches any single character; every other character
matches itself up to ASCII case).  Patterns containing other
metacharacters (`*`, `+`, `[`, `(`, …), and invalid patterns on which
`new RegExp` throws and the route answers 500, are outside the modelled
fragment, so every theorem about search behaviour either restricts the
search term to `plainSearchTerm` — terms of ASCII letters, digits and
spaces, on which `new RegExp(term, 'i').test` provably coincides with
case-insensitive substring containment (ECMAScript canonicalisation maps
only ASCII case pairs onto each other for such patterns), and `reTest`
provably coincides with `ciSubstring` — or evaluates a concrete
dot-metacharacter pattern, for which this fragment is exact. -/

/-- One pattern character against one subject character, `i` flag. -/
def charMatchCI (p c : Char) : Bool := p == '.' || p.toLower == c.toLower

/-- Match the whole pattern at the head of the subject. -/
def matchHere : List Char → List Char → Bool
  | [], _ => true
  | _ :: _, [] => false
  | p :: ps, c :: cs => charMatchCI p c && matchHere ps cs

/-- `RegExp.prototype.test`: the pattern matches at some position. -/
def regexFindCI (pat : List Char) : List Char → Bool
  | [] => matchHere pat []
  | c :: cs => matchHere pat (c :: cs) || regexFindCI pat cs

/-- `re.test(s)` for `re = new RegExp(pat, 'i')`. -/
def reTest (pat s : String) : Bool := regexFindCI pat.toList s.toList

/-- Literal match of the pattern at the head of the subject. -/
def litHere : List Char → List Char → Bool
  | [], _ => true
  | _ :: _, [] => false
  | p :: ps, c :: cs => p == c && litHere ps cs

/-- Literal occurrence of the pattern anywhere in the subject. -/
def litFind (pat : List Char) : List Char → Bool
  | [] => litHere pat []
  | c :: cs => litHere pat (c :: cs) || litFind pat cs

/-- The spec's notion of search matching (§4.1 list/search contract):
case-insensitive *substring* containment of `needle` in `hay`.  Kept
separate from `reTest`, which embeds what the code actually runs, so the
two can be compared. -/
def ciSubstring (needle hay : String) : Bool :=
  litFind (needle.toList.map Char.toLower) (hay.toList.map Char.toLower)

/-- A plain search character: an ASCII letter, a digit or a space — in
particular not a regular-expression metacharacter and not the dot. -/
def plainSearchChar (c : Char) : Bool := c.isAlpha || c.isDigit || c == ' '

/-- A search term built only of plain characters (such as the spec's
`"lady gaga"`).  `new RegExp(term, 'i')` never throws on such a term, and
its `test` is exactly case-insensitive substring containment. -/
def plainSearchTerm (t : String) : Bool := t.toList.all plainSearchChar

/-! ## Notes: list/search (GET /api/notes) -/

/-- The query-string parameters read by `router.get('/')` in `notes.js`. -/
structure NoteQuery where
  searchTerm : Option String := none
  folderId : Option String := none
  tagId : Option String := none
deriving Repr, DecidableEq

/-- The Mongo filter object built by `notes.js` lines 81–94: always
`{ userId }`; `$or` title/content regex when `searchTerm` is truthy;
`folderId` and `tags` equality filters when truthy. -/
structure NoteFilter where
  userId : Id
  searchRe : Option String
  folderId : Option Id
  tagId : Option Id
deriving Repr, DecidableEq

def buildNoteFilter (userId : Id) (q : NoteQuery) : NoteFilter :=
  { userId := userId
    searchRe := if truthy q.searchTerm then q.searchTerm else none
    folderId := if truthy q.folderId then q.folderId else none
    tagId := if truthy q.tagId then q.tagId else none }

/-- The `$or: [{title: re}, {content: re}]` clause (absent filter matches
everything). -/
def searchCond (re : Option String) (n : Note) : Bool :=
  match re with
  | none => true
  | some pat => reTest pat n.title || reTest pat n.content

/-- The `folderId` equality clause. -/
def folderCond (o : Option Id) (n : Note) : Bool :=
  match o with
  | none => true
  | some fid => n.folderId == some fid

/-- The `tags` array-containment clause. -/
def tagCond (o : Option Id) (n : Note) : Bool :=
  match o with
  | none => true
  | some tid => n.tags.contains tid

/-- Mongo document-matching semantics of a `NoteFilter`: field equality,
`$or` of two regex conditions, and array containment for `tags`. -/
def NoteFilter.matchesDoc (f : NoteFilter) (n : Note) : Bool :=
  n.userId == f.userId && searchCond f.searchRe n
    && folderCond f.folderId n && tagCond f.tagId n

/-- The `.sort({ updatedAt: 'desc' })` ordering. -/
def updatedAtDesc (a b : Note) : Prop := b.updatedAt ≤ a.updatedAt

instance : DecidableRel updatedAtDesc := fun _ _ => Nat.decLe _ _

instance : IsTotal Note updatedAtDesc :=
  ⟨fun a b => (Nat.le_total a.updatedAt b.updatedAt).symm⟩

instance : IsTrans Note updatedAtDesc :=
  ⟨fun _ _ _ h1 h2 => Nat.le_trans h2 h1⟩

/-- `GET /api/notes` (`notes.js` lines 77–105): build the filter from the
query string, `Note.find(filter)`, sort by `updatedAt` descending, respond
200 with the list.  (`populate('tags')` only substitutes tag documents for
tag ids in the serialized output; it does not change which notes are
returned or their order, so it is not modelled.) -/
def notesGetAll (s : Store) (userId : Id) (q : NoteQuery) :
    RouteResult (List Note) :=
  let filter := buildNoteFilter userId q
  .json 200 (List.insertionSort updatedAtDesc
    (s.notes.filter filter.matchesDoc))

/-- `GET /api/notes/:id` (`notes.js` lines 108–131). -/
def notesGetOne (s : Store) (userId : Id) (id : Id) : RouteResult Note :=
  if !isValidObjectId id then .errorOut 400 "The `id` is not valid"
  else
    match findOneDoc (fun n => n.id == id && n.userId == userId) s.notes with
    | some n => .json 200 n
    | none => .missing

/-! ## Folders and tags: reads -/

/-- `GET /api/folders` (`folders.js` lines 16–27): `Folder.find({userId})`
sorted by name ascending. -/
def foldersGetAll (s : Store) (userId : Id) : RouteResult (List Folder) :=
  .json 200 (List.insertionSort (fun a b : Folder => a.name ≤ b.name)
    (s.folders.filter (fun f => f.userId == userId)))

/-- `GET /api/folders/:id` (`folders.js` lines 30–52). -/
def foldersGetOne (s : Store) (userId : Id) (id : Id) : RouteResult Folder :=
  if !isValidObjectId id then .errorOut 400 "The `id` is not valid"
  else
    match findOneDoc (fun f => f.id == id && f.userId == userId) s.folders with
    | some f => .json 200 f
    | none => .missing

/-- `GET /api/tags` (tags router lines 78–89). -/
def tagsGetAll (s : Store) (userId : Id) : RouteResult (List Tag) :=
  .json 200 (List.insertionSort (fun a b : Tag => a.name ≤ b.name)
    (s.tags.filter (fun t => t.userId == userId)))

/-- `GET /api/tags/:id` (tags router lines 92–114).  Note the source uses
`Tag.find` (plural), so `result` is an *array*; the `if (result)` guard
tests the truthiness of an array, which always holds. -/
def tagsGetById (s : Store) (userId : Id) (id : Id) : RouteResult (List Tag) :=
  if !isValidObjectId id then .errorOut 400 "The `id` is not valid"
  else
    let result := s.tags.filter (fun t => t.id == id && t.userId == userId)
    if jsTruthyArray result then .json 200 result else .missing

/-! ## Notes: writes -/

/-- The JSON request body of a note create/update.  `none` = field absent
from the body, `some v` = field present with value `v`. -/
structure NoteBody where
  title : Option String := none
  content : Option String := none
  folderId : Option String := none
  tags : Option (List String) := none
  userId : Option String := none
deriving Repr, DecidableEq

/-- Middleware `validateObjectIds` (`notes.js` lines 16–32):
400 when a truthy `folderId` is malformed, or when a present `tags`
array contains a malformed id. -/
def validateObjectIds (body : NoteBody) : Option (Nat × String) :=
  if truthy body.folderId && !isValidObjectId (body.folderId.getD "") then
    some (400, "The `folderId` is invalid")
  else if (match body.tags with
           | some ts => ts.any (fun t => !isValidObjectId t)
           | none => false) then
    some (400, "The `tags` array contains an invalid id")
  else none

/-- Middleware `validateFolderOwnership` (`notes.js` lines 34–51): a falsy
`folderId` (absent or empty string) skips the check; otherwise the folder
must resolve under the trusted `userId`, else 422. -/
def validateFolderOwnership (s : Store) (userId : Id) (body : NoteBody) :
    Option (Nat × String) :=
  if !truthy body.folderId then none
  else
    let fid := body.folderId.getD ""
    match findOneDoc (fun f => f.id == fid && f.userId == userId) s.folders with
    | some _ => none
    | none => some (422, "The `folderId` does not exist")

/-- Middleware `validateTagOwnership` (`notes.js` lines 53–74): skipped only
when `tags` is absent; otherwise every listed id must resolve to a tag owned
by `userId`, else 422 listing the offending ids. -/
def validateTagOwnership (s : Store) (userId : Id) (body : NoteBody) :
    Option (Nat × String) :=
  match body.tags with
  | none => none
  | some ts =>
    let ownedTagIds :=
      (s.tags.filter (fun t => ts.contains t.id && t.userId == userId)).map
        (fun t => t.id)
    let badIds := ts.filter (fun t => !ownedTagIds.contains t)
    if badIds.length != 0 then
      some (422, "The following tag ids don\x27t exist: [" ++
        String.intercalate ", " badIds ++ "]")
    else none

/-- `POST /api/notes` (`notes.js` lines 134–181), with its middleware chain
run first.  `freshId`/`now` stand for the ObjectId and timestamps the store
generates.  Mirrors the source order: object-id validation, folder
ownership, tag ownership, missing-title check, the
`if (newNote.folderId === '') delete newNote.folderId` normalization, the
foreign-`userId` 403 check, then `Note.create`. -/
def notesPost (s : Store) (userId : Id) (body : NoteBody) (freshId : Id)
    (now : Nat) : RouteResult Note × Store :=
  match validateObjectIds body with
  | some (st, m) => (.errorOut st m, s)
  | none =>
  match validateFolderOwnership s userId body with
  | some (st, m) => (.errorOut st m, s)
  | none =>
  match validateTagOwnership s userId body with
  | some (st, m) => (.errorOut st m, s)
  | none =>
  if !truthy body.title then
    (.errorOut 400 "Missing `title` in request body", s)
  else
    let storedFolderId : Option Id :=
      match body.folderId with
      | some "" => none
      | x => x
    if truthy body.userId && body.userId.getD "" != userId then
      (.errorOut 403 "Cannot create a note on behalf of another user", s)
    else
      let newNote : Note :=
        { id := freshId
          title := body.title.getD ""
          content := body.content.getD ""
          folderId := storedFolderId
          tags := body.tags.getD []
          userId := userId
          createdAt := now
          updatedAt := now }
      (.json 201 newNote, { s with notes := s.notes ++ [newNote] })

/-- The `toUpdate` document assembled by `PUT /api/notes/:id` after the
`folderId === ''` branch replaced the field by `$unset`. -/
structure NoteUpdate where
  title : Option String
  content : Option String
  folderId : Option String
  tags : Option (List String)
  userId : Option String
  unsetFolder : Bool
deriving Repr, DecidableEq

/-- Application of `toUpdate` to a matched document by `findOneAndUpdate`
(present fields are `$set`, `unsetFolder` is the `$unset` of `folderId`;
the mongoose `timestamps` option bumps `updatedAt`). -/
def applyNoteUpdate (u : NoteUpdate) (now : Nat) (n : Note) : Note :=
  { n with
    title := u.title.getD n.title
    content := u.content.getD n.content
    folderId :=
      if u.unsetFolder then none
      else match u.folderId with
           | some fid => some fid
           | none => n.folderId
    tags := u.tags.getD n.tags
    userId := u.userId.getD n.userId
    updatedAt := now }

/-- `PUT /api/notes/:id` (`notes.js` lines 184–238), middleware chain
included.  Order as in the source: object-id validation, folder ownership,
tag ownership, then in the handler: invalid `:id` → 400, empty `title` in
the patch → 400, truthy foreign `userId` in the patch → 403, the
`folderId === ''` → `$unset` rewrite, then
`Note.findOneAndUpdate({_id, userId}, toUpdate, {new: true})` (no match →
bare `next()`). -/
def notesPut (s : Store) (userId : Id) (id : Id) (body : NoteBody)
    (now : Nat) : RouteResult Note × Store :=
  match validateObjectIds body with
  | some (st, m) => (.errorOut st m, s)
  | none =>
  match validateFolderOwnership s userId body with
  | some (st, m) => (.errorOut st m, s)
  | none =>
  match validateTagOwnership s userId body with
  | some (st, m) => (.errorOut st m, s)
  | none =>
  if !isValidObjectId id then (.errorOut 400 "The `id` is not valid", s)
  else if body.title == some "" then
    (.errorOut 400 "Missing `title` in request body", s)
  else if truthy body.userId && body.userId.getD "" != userId then
    (.errorOut 403 "Cannot transfer note to another user", s)
  else
    let toUpdate : NoteUpdate :=
      { title := body.title
        content := body.content
        folderId := if body.folderId == some "" then none else body.folderId
        tags := body.tags
        userId := body.userId
        unsetFolder := body.folderId == some "" }
    let p := fun (n : Note) => n.id == id && n.userId == userId
    match findOneDoc p s.notes with
    | none => (.missing, s)
    | some n =>
      let updated := applyNoteUpdate toUpdate now n
      (.json 200 updated,
       { s with notes := updateFirst p (fun _ => updated) s.notes })

/-- `DELETE /api/notes/:id` (`notes.js` lines 241–259): invalid id → 400;
otherwise `Note.findOneAndDelete({_id, userId})` and then — whether or not
a document matched — `res.sendStatus(204)`. -/
def notesDelete (s : Store) (userId : Id) (id : Id) :
    RouteResult Unit × Store :=
  if !isValidObjectId id then (.errorOut 400 "The `id` is not valid", s)
  else
    let p := fun (n : Note) => n.id == id && n.userId == userId
    (.json 204 (), { s with notes := deleteFirst p s.notes })

/-! ## Folders and tags: writes -/

/-- Modelled from the spec: `models/folder.js` is not part of `src/`; per
§3 ("`name` … unique *per owning user*") and §9 (store-level uniqueness
constraint surfaced as a duplicate-key fault) the folder schema carries a
unique compound index on `(name, userId)`, and an insert or update whose
resulting document collides with a *different* stored document raises the
Mongo duplicate-key error `code 11000`, which the routes translate.
`exceptId = none` checks an insert; `some i` exempts the document being
updated. -/
def folderNameConflict (s : Store) (nm : String) (userId : Id)
    (exceptId : Option Id) : Bool :=
  s.folders.any (fun f =>
    f.name == nm && f.userId == userId && exceptId != some f.id)

/-- Modelled from the spec: same unique `(name, userId)` index for tags
(`models/tag.js` is not part of `src/`; spec §3 "Tag: identical shape and
invariants to Folder"). -/
def tagNameConflict (s : Store) (nm : String) (userId : Id)
    (exceptId : Option Id) : Bool :=
  s.tags.any (fun t =>
    t.name == nm && t.userId == userId && exceptId != some t.id)

/-- `POST /api/folders` (`folders.js` lines 55–82): falsy `name` → 400;
`Folder.create({name, userId})`; a duplicate-key fault (`err.code ===
11000`) is rewritten to a 400 "Folder name already exists" error. -/
def foldersPost (s : Store) (userId : Id) (name : Option String)
    (freshId : Id) (now : Nat) : RouteResult Folder × Store :=
  if !truthy name then (.errorOut 400 "Missing `name` in request body", s)
  else
    let nm := name.getD ""
    if folderNameConflict s nm userId none then
      (.errorOut 400 "Folder name already exists", s)
    else
      let nf : Folder :=
        { id := freshId, name := nm, userId := userId,
          createdAt := now, updatedAt := now }
      (.json 201 nf, { s with folders := s.folders ++ [nf] })

/-- `PUT /api/folders/:id` (`folders.js` lines 85–126): invalid id → 400;
falsy `name` → 400; truthy foreign `req.body.userId` → 403;
`Folder.findOneAndUpdate({_id, userId}, {name, userId}, {new: true})` with
the duplicate-key fault translated; no match → bare `next()`. -/
def foldersPut (s : Store) (userId : Id) (id : Id) (name : Option String)
    (bodyUserId : Option String) (now : Nat) : RouteResult Folder × Store :=
  if !isValidObjectId id then (.errorOut 400 "The `id` is not valid", s)
  else if !truthy name then
    (.errorOut 400 "Missing `name` in request body", s)
  else if truthy bodyUserId && bodyUserId.getD "" != userId then
    (.errorOut 403 "Cannot transfer folder to a different user", s)
  else
    let nm := name.getD ""
    let p := fun (f : Folder) => f.id == id && f.userId == userId
    match findOneDoc p s.folders with
    | none => (.missing, s)
    | some f =>
      if folderNameConflict s nm userId (some f.id) then
        (.errorOut 400 "Folder name already exists", s)
      else
        let updated := { f with name := nm, userId := userId,
                                updatedAt := now }
        (.json 200 updated,
         { s with folders := updateFirst p (fun _ => updated) s.folders })

/-- `DELETE /api/folders/:id` (`folders.js` lines 129–152): invalid id →
400; `Folder.findOneAndDelete({_id, userId})`; only when a document was
deleted, `Note.updateMany({folderId: id}, {$unset: {folderId: ''}})` —
note this cascade is keyed on `folderId` alone, not on `userId`; in either
case the final `.then` answers 204. -/
def foldersDelete (s : Store) (userId : Id) (id : Id) :
    RouteResult Unit × Store :=
  if !isValidObjectId id then (.errorOut 400 "The `id` is not valid", s)
  else
    let p := fun (f : Folder) => f.id == id && f.userId == userId
    match findOneDoc p s.folders with
    | none => (.json 204 (), s)
    | some _ =>
      (.json 204 (),
       { s with
         folders := deleteFirst p s.folders
         notes := s.notes.map (fun n =>
           if n.folderId == some id then { n with folderId := none } else n) })

/-- `POST /api/tags` (tags router lines 117–144). -/
def tagsPost (s : Store) (userId : Id) (name : Option String)
    (freshId : Id) (now : Nat) : RouteResult Tag × Store :=
  if !truthy name then (.errorOut 400 "Missing `name` in request body", s)
  else
    let nm := name.getD ""
    if tagNameConflict s nm userId none then
      (.errorOut 400 "Tag name already exists", s)
    else
      let nt : Tag :=
        { id := freshId, name := nm, userId := userId,
          createdAt := now, updatedAt := now }
      (.json 201 nt, { s with tags := s.tags ++ [nt] })

/-- `PUT /api/tags/:id` (tags router lines 147–188): invalid id → 400;
falsy `name` → 400; then the guard `if (userId !== req.body.userId)` → 403
— a *strict* comparison, so it also fires when the body has no `userId`
at all.  The update itself is `Tag.findByIdAndUpdate({_id: id, userId},
…)`: `findByIdAndUpdate` treats its first argument as an id, and mongoose
casts an object carrying an `_id` property to that `_id`, so the query is
by `_id` alone (the `userId` scope is dropped).  Duplicate-key faults are
translated as for folders. -/
def tagsPut (s : Store) (userId : Id) (id : Id) (name : Option String)
    (bodyUserId : Option String) (now : Nat) : RouteResult Tag × Store :=
  if !isValidObjectId id then (.errorOut 400 "The `id` is not valid", s)
  else if !truthy name then
    (.errorOut 400 "Missing `name` in request body", s)
  else if bodyUserId != some userId then
    (.errorOut 403 "Cannot transfer a tag to a different user", s)
  else
    let nm := name.getD ""
    let p := fun (t : Tag) => t.id == id
    match findOneDoc p s.tags with
    | none => (.missing, s)
    | some t =>
      if tagNameConflict s nm userId (some t.id) then
        (.errorOut 400 "Tag name already exists", s)
      else
        let updated := { t with name := nm, userId := userId,
                                updatedAt := now }
        (.json 200 updated,
         { s with tags := updateFirst p (fun _ => updated) s.tags })

/-- `DELETE /api/tags/:id` (tags router lines 191–212): invalid id → 400;
`Tag.findOneAndDelete({_id, userId})`; only when a document was deleted,
`Note.updateMany({tags: id}, {$pull: {tags: id}})` — again keyed on the
tag id alone; in either case 204. -/
def tagsDelete (s : Store) (userId : Id) (id : Id) :
    RouteResult Unit × Store :=
  if !isValidObjectId id then (.errorOut 400 "The `id` is not valid", s)
  else
    let p := fun (t : Tag) => t.id == id && t.userId == userId
    match findOneDoc p s.tags with
    | none => (.json 204 (), s)
    | some _ =>
      (.json 204 (),
       { s with
         tags := deleteFirst p s.tags
         notes := s.notes.map (fun n =>
           if n.tags.contains id then
             { n with tags := n.tags.filter (fun x => x != id) }
           else n) })

/-! ## Projections and concrete fixtures -/

/-- The list carried by a 2xx `res.json` response (empty for non-json
outcomes); used to state properties of the list endpoints. -/
def RouteResult.listBody {α : Type} : RouteResult (List α) → List α
  | .json _ l => l
  | _ => []

/-- A patch whose only field is `folderId: ""`. -/
def unsetFolderBody : NoteBody := { folderId := some "" }

/-- A patch with no fields at all. -/
def emptyPatchBody : NoteBody := {}

/-- Fixtures: two users `u1`/`u2`; `u1` owns two folders, two tags and a
note referencing folder `ffffffffffff` and tag `tttttttttttt`; `u2` owns
one note.  All ids are 12-character strings, hence valid ObjectIds. -/
def noteA : Note :=
  { id := "nnnnnnnnnnn1", title := "Alpha", content := "gaga content"
    folderId := some "ffffffffffff", tags := ["tttttttttttt"]
    userId := "u1", createdAt := 0, updatedAt := 5 }

def noteB : Note :=
  { id := "nnnnnnnnnnn2", title := "Beta", content := ""
    folderId := none, tags := []
    userId := "u2", createdAt := 0, updatedAt := 7 }

def folderA : Folder :=
  { id := "ffffffffffff", name := "Work", userId := "u1"
    createdAt := 0, updatedAt := 0 }

def folderB : Folder :=
  { id := "fffffffffff2", name := "Play", userId := "u1"
    createdAt := 0, updatedAt := 0 }

def tagA : Tag :=
  { id := "tttttttttttt", name := "breaking", userId := "u1"
    createdAt := 0, updatedAt := 0 }

def tagB : Tag :=
  { id := "ttttttttttt2", name := "news", userId := "u1"
    createdAt := 0, updatedAt := 0 }

def storeAB : Store :=
  { notes := [noteA, noteB]
    folders := [folderA, folderB]
    tags := [tagA, tagB] }

/-- Store for the search counterexample: one note owned by `u1` whose
title is `"abc"`. -/
def cexNote : Note :=
  { id := "cccccccccccc", title := "abc", content := ""
    folderId := none, tags := [], userId := "u1"
    createdAt := 0, updatedAt := 0 }

def cexStore : Store := { notes := [cexNote], folders := [], tags := [] }

/-! ## Lemmas about the store primitives -/

theorem findOneDoc_mem {α : Type} {p : α → Bool} {l : List α} {a : α}
    (h : findOneDoc p l = some a) : a ∈ l ∧ p a = true := by
  induction l with
  | nil => simp [findOneDoc] at h
  | cons x xs ih =>
    cases hp : p x with
    | true =>
      rw [findOneDoc, hp, if_pos rfl] at h
      obtain rfl := Option.some.inj h
      exact ⟨List.mem_cons_self _ _, hp⟩
    | false =>
      rw [findOneDoc, hp] at h
      simp only [Bool.false_eq_true, if_false] at h
      obtain ⟨hm, hpa⟩ := ih h
      exact ⟨List.mem_cons_of_mem _ hm, hpa⟩

theorem findOneDoc_eq_none_iff {α : Type} {p : α → Bool} {l : List α} :
    findOneDoc p l = none ↔ ∀ x ∈ l, p x = false := by
  induction l with
  | nil => simp [findOneDoc]
  | cons x xs ih => cases hp : p x <;> simp [findOneDoc, hp, ih]

theorem findOneDoc_first {α : Type} (key : α → Id) {l : List α}
    {p : α → Bool} {a : α}
    (hnd : (l.map key).Nodup) (ha : a ∈ l) (hpa : p a = true)
    (hkey : ∀ x, p x = true → key x = key a) :
    findOneDoc p l = some a := by
  induction l with
  | nil => cases ha
  | cons x xs ih =>
    rw [List.map_cons, List.nodup_cons] at hnd
    cases hp : p x with
    | true =>
      rcases List.mem_cons.mp ha with rfl | hat
      · rw [findOneDoc, hp, if_pos rfl]
      · exact absurd (hkey x hp ▸ List.mem_map_of_mem key hat) hnd.1
    | false =>
      have hat : a ∈ xs := by
        rcases List.mem_cons.mp ha with rfl | h
        · rw [hpa] at hp; cases hp
        · exact h
      rw [findOneDoc, hp]
      simpa using ih hnd.2 hat

theorem eq_of_mem_key {α : Type} (key : α → Id) {l : List α} {a b : α}
    (hnd : (l.map key).Nodup) (ha : a ∈ l) (hb : b ∈ l)
    (hk : key a = key b) : a = b := by
  induction l with
  | nil => cases ha
  | cons x xs ih =>
    rw [List.map_cons, List.nodup_cons] at hnd
    rcases List.mem_cons.mp ha with rfl | ha2
    · rcases List.mem_cons.mp hb with rfl | hb2
      · rfl
      · exact absurd (hk ▸ List.mem_map_of_mem key hb2) hnd.1
    · rcases List.mem_cons.mp hb with rfl | hb2
      · exact absurd (hk ▸ List.mem_map_of_mem key ha2) hnd.1
      · exact ih hnd.2 ha2 hb2

theorem deleteFirst_of_none {α : Type} {p : α → Bool} {l : List α}
    (h : ∀ x ∈ l, p x = false) : deleteFirst p l = l := by
  induction l with
  | nil => rfl
  | cons x xs ih =>
    rw [deleteFirst, h x (List.mem_cons_self x xs)]
    simp only [Bool.false_eq_true, if_false]
    rw [ih (fun y hy => h y (List.mem_cons_of_mem x hy))]

theorem deleteFirst_key_not_mem {α : Type} (key : α → Id) {l : List α}
    {p : α → Bool} {a : α} {k : Id}
    (hnd : (l.map key).Nodup) (ha : a ∈ l) (hpa : p a = true)
    (hkey : ∀ x, p x = true → key x = k) :
    ∀ g ∈ deleteFirst p l, key g ≠ k := by
  induction l with
  | nil => intro g hg; cases hg
  | cons x xs ih =>
    rw [List.map_cons, List.nodup_cons] at hnd
    cases hp : p x with
    | true =>
      intro g hg hgk
      rw [deleteFirst, hp, if_pos rfl] at hg
      exact hnd.1 ((hkey x hp).trans hgk.symm ▸ List.mem_map_of_mem key hg)
    | false =>
      have hat : a ∈ xs := by
        rcases List.mem_cons.mp ha with rfl | h
        · rw [hpa] at hp; cases hp
        · exact h
      intro g hg hgk
      rw [deleteFirst, hp] at hg
      simp only [Bool.false_eq_true, if_false] at hg
      rcases List.mem_cons.mp hg with rfl | hg2
      · exact hnd.1 ((hkey a hpa).trans hgk.symm ▸ List.mem_map_of_mem key hat)
      · exact ih hnd.2 hat g hg2 hgk

theorem updateFirst_mem {α : Type} {p : α → Bool} {f : α → α} {l : List α}
    {a : α} (h : findOneDoc p l = some a) : f a ∈ updateFirst p f l := by
  induction l with
  | nil => simp [findOneDoc] at h
  | cons x xs ih =>
    cases hp : p x with
    | true =>
      rw [findOneDoc, hp, if_pos rfl] at h
      obtain rfl := Option.some.inj h
      rw [updateFirst, hp, if_pos rfl]
      exact List.mem_cons_self _ _
    | false =>
      rw [findOneDoc, hp] at h
      simp only [Bool.false_eq_true, if_false] at h
      rw [updateFirst, hp]
      simp only [Bool.false_eq_true, if_false]
      exact List.mem_cons_of_mem _ (ih h)

/-- Characterization of a successful `POST /api/notes`: the 201 body is the
persisted record, with `folderId: ""` normalized away and `ownerId` forced
to the trusted identity. -/
theorem notesPost_ok (s : Store) (u : Id) (b : NoteBody) (freshId : Id)
    (now : Nat) (n : Note)
    (h : (notesPost s u b freshId now).1 = .json 201 n) :
    n = { id := freshId, title := b.title.getD ""
          content := b.content.getD ""
          folderId := match b.folderId with | some "" => none | x => x
          tags := b.tags.getD [], userId := u
          createdAt := now, updatedAt := now } := by
  unfold notesPost at h
  repeat' split at h
  all_goals simp_all

/-! ## Claim theorems -/

/-- **C10**: for every well-formed id, `GET /api/tags/:id` responds 200
with the JSON array of the matching caller-owned tags; when no such tag
exists it responds 200 with the empty array; it never produces the
not-found fall-through, because the `Tag.find` result is an array and a
JavaScript array is always truthy. -/
theorem tagsGetById_always_ok (s : Store) (u : Id) (i : Id)
    (hv : isValidObjectId i = true) :
    tagsGetById s u i =
      .json 200 (s.tags.filter (fun t => t.id == i && t.userId == u)) ∧
    ((∀ t ∈ s.tags, ¬(t.id = i ∧ t.userId = u)) →
      tagsGetById s u i = .json 200 ([] : List Tag)) ∧
    tagsGetById s u i ≠ .missing := by
  refine ⟨by simp [tagsGetById, hv, jsTruthyArray], ?_,
    by simp [tagsGetById, hv, jsTruthyArray]⟩
  intro h
  have hfil : s.tags.filter (fun t => t.id == i && t.userId == u) = [] := by
    rw [List.filter_eq_nil_iff]
    intro t ht
    simpa [Bool.and_eq_true, beq_iff_eq, not_and] using h t ht
  simp [tagsGetById, hv, jsTruthyArray, hfil]

theorem tagsGetById_always_ok_witness :
    isValidObjectId "tttttttttttt" = true ∧
    tagsGetById storeAB "u2" "tttttttttttt" = .json 200 ([] : List Tag) ∧
    tagsGetById storeAB "u2" "tttttttttttt" ≠ .missing :=
  ⟨by decide,
   (tagsGetById_always_ok storeAB "u2" "tttttttttttt" (by decide)).2.1
     (by decide),
   (tagsGetById_always_ok storeAB "u2" "tttttttttttt" (by decide)).2.2⟩

/-- **C5** (code bug, tag side): renaming an owned tag with a body that
*omits* `userId` is rejected 403 ("Cannot transfer a tag to a different
user") and nothing is stored, because the guard `userId !== req.body.userId`
also fires when `req.body.userId` is `undefined`; the repository's own test
(`tags.test.js`, "should update the tag") sends exactly such a body and
expects a 200 with the renamed tag. -/
theorem tagRename_without_userId_forbidden :
    tagsPut storeAB "u1" "tttttttttttt" (some "Updated Name") none 9 =
      (.errorOut 403 "Cannot transfer a tag to a different user", storeAB) := by
  decide

/-- **C4** (counterexample): caller `u1` deletes `u2`'s note
`nnnnnnnnnnn2` — a syntactically valid id owned by a different user.  The
handler answers 204 No Content, not the claimed 404; only the stored state
is unchanged. -/
theorem foreignNoteDelete_responds_204 :
    notesDelete storeAB "u1" "nnnnnnnnnnn2" = (.json 204 (), storeAB) ∧
    (notesDelete storeAB "u1" "nnnnnnnnnnn2").1 ≠ .missing ∧
    (notesDelete storeAB "u1" "nnnnnnnnnnn2").1 ≠ .errorOut 404 "Not Found" := by
  decide

/-- **C7**: creating a note with `folderId: ""` is indistinguishable from
creating it with `folderId` omitted — the response and the resulting store
are equal — and whenever such a request succeeds, the created record
carries no folder reference.  The empty string is falsy, so it passes both
`validateObjectIds` and `validateFolderOwnership` as "no folder", and the
handler deletes the field before `Note.create`. -/
theorem noteCreate_emptyFolderId_eq_omitted (s : Store) (u : Id)
    (b : NoteBody) (freshId : Id) (now : Nat) :
    notesPost s u { b with folderId := some "" } freshId now =
      notesPost s u { b with folderId := none } freshId now ∧
    (∀ n, (notesPost s u { b with folderId := some "" } freshId now).1 =
        .json 201 n → n.folderId = none) := by
  constructor
  · rfl
  · intro n hn
    have h := notesPost_ok s u { b with folderId := some "" } freshId now n hn
    rw [h]; rfl

theorem noteCreate_emptyFolderId_eq_omitted_witness :
    notesPost storeAB "u1"
        { title := some "T", folderId := some "" } "nnnnnnnnnnn3" 9 =
      notesPost storeAB "u1" { title := some "T" } "nnnnnnnnnnn3" 9 ∧
    ∀ n, (notesPost storeAB "u1"
        { title := some "T", folderId := some "" } "nnnnnnnnnnn3" 9).1 =
      .json 201 n → n.folderId = none :=
  ⟨(noteCreate_emptyFolderId_eq_omitted storeAB "u1"
      { title := some "T" } "nnnnnnnnnnn3" 9).1,
   (noteCreate_emptyFolderId_eq_omitted storeAB "u1"
      { title := some "T" } "nnnnnnnnnnn3" 9).2⟩

/-- **C4** (amended): take a note that exists but belongs to a different
user, addressed by its (well-formed) id, with an otherwise acceptable
patch.  `PUT` falls through to the not-found handler (404) — never a 403 —
and the store is unchanged; `DELETE` also leaves the store unchanged but
responds 204 No Content (success), not 404: `findOneAndDelete` matches
nothing and the handler sends 204 unconditionally. -/
theorem foreignNote_update_404_delete_204 (s : Store) (u : Id) (n : Note)
    (b : NoteBody) (now : Nat)
    (hnd : (s.notes.map Note.id).Nodup)
    (hmem : n ∈ s.notes) (hforeign : n.userId ≠ u)
    (hv : isValidObjectId n.id = true)
    (h1 : validateObjectIds b = none)
    (h2 : validateFolderOwnership s u b = none)
    (h3 : validateTagOwnership s u b = none)
    (h4 : (b.title == some "") = false)
    (h5 : (truthy b.userId && (b.userId.getD "" != u)) = false) :
    notesPut s u n.id b now = (.missing, s) ∧
    notesDelete s u n.id = (.json 204 (), s) := by
  have hfalse : ∀ m ∈ s.notes, (m.id == n.id && m.userId == u) = false := by
    intro m hm
    by_cases hid : m.id = n.id
    · obtain rfl := eq_of_mem_key Note.id hnd hm hmem hid
      simp [beq_eq_false_iff_ne, hforeign]
    · simp [beq_eq_false_iff_ne, hid]
  have hnone :
      findOneDoc (fun m => m.id == n.id && m.userId == u) s.notes = none :=
    findOneDoc_eq_none_iff.mpr hfalse
  constructor
  · simp [notesPut, h1, h2, h3, hv, h4, h5, hnone]
  · have hdel := deleteFirst_of_none hfalse
    simp [notesDelete, hv, hdel]

theorem foreignNote_update_404_delete_204_witness :
    notesPut storeAB "u1" noteB.id emptyPatchBody 0 = (.missing, storeAB) ∧
    notesDelete storeAB "u1" noteB.id = (.json 204 (), storeAB) :=
  foreignNote_update_404_delete_204 storeAB "u1" noteB emptyPatchBody 0
    (by decide) (by decide) (by decide) (by decide)
    (by decide) (by decide) (by decide) (by decide) (by decide)

/-- **C1**: every list and every single-item read on Notes, Folders and
Tags returns only entities whose `userId` equals the trusted caller
identity, for every store state, caller and query: each read route builds
its Mongo filter around `userId`. -/
theorem reads_are_owner_scoped (s : Store) (u : Id) (q : NoteQuery)
    (i : Id) :
    (∀ n ∈ (notesGetAll s u q).listBody, n.userId = u) ∧
    (∀ n, notesGetOne s u i = .json 200 n → n.userId = u) ∧
    (∀ f ∈ (foldersGetAll s u).listBody, f.userId = u) ∧
    (∀ f, foldersGetOne s u i = .json 200 f → f.userId = u) ∧
    (∀ t ∈ (tagsGetAll s u).listBody, t.userId = u) ∧
    (∀ t ∈ (tagsGetById s u i).listBody, t.userId = u) := by
  refine ⟨?_, ?_, ?_, ?_, ?_, ?_⟩
  · intro n hn
    simp only [notesGetAll, RouteResult.listBody] at hn
    rw [List.mem_insertionSort] at hn
    have hp := (List.mem_filter.mp hn).2
    simp only [NoteFilter.matchesDoc, buildNoteFilter, Bool.and_eq_true,
      beq_iff_eq] at hp
    exact hp.1.1.1
  · intro n hn
    unfold notesGetOne at hn
    cases hv : isValidObjectId i with
    | false => rw [hv] at hn; simp at hn
    | true =>
      rw [hv] at hn
      simp only [Bool.not_true, Bool.false_eq_true, if_false] at hn
      cases hfd : findOneDoc (fun m => m.id == i && m.userId == u) s.notes with
      | none => rw [hfd] at hn; simp at hn
      | some m =>
        rw [hfd] at hn
        simp only [RouteResult.json.injEq, true_and] at hn
        obtain ⟨_, hp⟩ := findOneDoc_mem hfd
        simp only [Bool.and_eq_true, beq_iff_eq] at hp
        exact hn ▸ hp.2
  · intro f hf
    simp only [foldersGetAll, RouteResult.listBody] at hf
    rw [List.mem_insertionSort] at hf
    have hp := (List.mem_filter.mp hf).2
    simpa using hp
  · intro f hf
    unfold foldersGetOne at hf
    cases hv : isValidObjectId i with
    | false => rw [hv] at hf; simp at hf
    | true =>
      rw [hv] at hf
      simp only [Bool.not_true, Bool.false_eq_true, if_false] at hf
      cases hfd : findOneDoc (fun g => g.id == i && g.userId == u) s.folders with
      | none => rw [hfd] at hf; simp at hf
      | some g =>
        rw [hfd] at hf
        simp only [RouteResult.json.injEq, true_and] at hf
        obtain ⟨_, hp⟩ := findOneDoc_mem hfd
        simp only [Bool.and_eq_true, beq_iff_eq] at hp
        exact hf ▸ hp.2
  · intro t ht
    simp only [tagsGetAll, RouteResult.listBody] at ht
    rw [List.mem_insertionSort] at ht
    have hp := (List.mem_filter.mp ht).2
    simpa using hp
  · intro t ht
    unfold tagsGetById at ht
    cases hv : isValidObjectId i with
    | false => rw [hv] at ht; simp [RouteResult.listBody] at ht
    | true =>
      rw [hv] at ht
      simp only [jsTruthyArray, Bool.not_true, Bool.false_eq_true, if_false,
        if_true, RouteResult.listBody] at ht
      have hp := (List.mem_filter.mp ht).2
      simp only [Bool.and_eq_true, beq_iff_eq] at hp
      exact hp.2

theorem reads_are_owner_scoped_witness :
    noteA ∈ (notesGetAll storeAB "u1" {}).listBody ∧ noteA.userId = "u1" :=
  ⟨by decide,
   (reads_are_owner_scoped storeAB "u1" {} "nnnnnnnnnnn1").1 noteA (by decide)⟩

/-- **C8**: on an owned note that has a folder reference, a patch whose
only field is `folderId: ""` succeeds and the resulting record has no
folder reference (the handler turns the empty string into a `$unset`),
while the empty patch — `folderId` omitted — succeeds and leaves the
existing folder reference unchanged. -/
theorem noteUpdate_emptyFolderId_unsets (s : Store) (u : Id) (n : Note)
    (now : Nat) (fid : Id)
    (hnd : (s.notes.map Note.id).Nodup) (hmem : n ∈ s.notes)
    (hown : n.userId = u) (hv : isValidObjectId n.id = true)
    (hfold : n.folderId = some fid) :
    (∃ n1, (notesPut s u n.id unsetFolderBody now).1 = .json 200 n1 ∧
      n1.folderId = none ∧
      n1 ∈ (notesPut s u n.id unsetFolderBody now).2.notes) ∧
    (∃ n2, (notesPut s u n.id emptyPatchBody now).1 = .json 200 n2 ∧
      n2.folderId = some fid ∧
      n2 ∈ (notesPut s u n.id emptyPatchBody now).2.notes) := by
  have hfind :
      findOneDoc (fun m => m.id == n.id && m.userId == u) s.notes = some n :=
    findOneDoc_first Note.id hnd hmem (by simp [hown]) (fun x hx => by
      simp only [Bool.and_eq_true, beq_iff_eq] at hx; exact hx.1)
  constructor
  · refine ⟨applyNoteUpdate ⟨none, none, none, none, none, true⟩ now n,
      ?_, rfl, ?_⟩
    · have e1 : validateObjectIds
          { title := none, content := none, folderId := some "", tags := none,
            userId := none } = none := rfl
      have e2 : validateFolderOwnership s u
          { title := none, content := none, folderId := some "", tags := none,
            userId := none } = none := rfl
      have e3 : validateTagOwnership s u
          { title := none, content := none, folderId := some "", tags := none,
            userId := none } = none := rfl
      simp [notesPut, e1, e2, e3, hv, hfind, unsetFolderBody, truthy]
    · have h2 : (notesPut s u n.id unsetFolderBody now).2.notes =
          updateFirst (fun m => m.id == n.id && m.userId == u)
            (fun _ => applyNoteUpdate ⟨none, none, none, none, none, true⟩
              now n) s.notes := by
        have e1 : validateObjectIds
            { title := none, content := none, folderId := some "",
              tags := none, userId := none } = none := rfl
        have e2 : validateFolderOwnership s u
            { title := none, content := none, folderId := some "",
              tags := none, userId := none } = none := rfl
        have e3 : validateTagOwnership s u
            { title := none, content := none, folderId := some "",
              tags := none, userId := none } = none := rfl
        simp [notesPut, e1, e2, e3, hv, hfind, unsetFolderBody, truthy]
      rw [h2]
      exact updateFirst_mem hfind
  · refine ⟨applyNoteUpdate ⟨none, none, none, none, none, false⟩ now n,
      ?_, hfold, ?_⟩
    · have e1 : validateObjectIds
          { title := none, content := none, folderId := none, tags := none,
            userId := none } = none := rfl
      have e2 : validateFolderOwnership s u
          { title := none, content := none, folderId := none, tags := none,
            userId := none } = none := rfl
      have e3 : validateTagOwnership s u
          { title := none, content := none, folderId := none, tags := none,
            userId := none } = none := rfl
      simp [notesPut, e1, e2, e3, hv, hfind, emptyPatchBody, truthy]
    · have h2 : (notesPut s u n.id emptyPatchBody now).2.notes =
          updateFirst (fun m => m.id == n.id && m.userId == u)
            (fun _ => applyNoteUpdate ⟨none, none, none, none, none, false⟩
              now n) s.notes := by
        have e1 : validateObjectIds
            { title := none, content := none, folderId := none, tags := none,
              userId := none } = none := rfl
        have e2 : validateFolderOwnership s u
            { title := none, content := none, folderId := none, tags := none,
              userId := none } = none := rfl
        have e3 : validateTagOwnership s u
            { title := none, content := none, folderId := none, tags := none,
              userId := none } = none := rfl
        simp [notesPut, e1, e2, e3, hv, hfind, emptyPatchBody, truthy]
      rw [h2]
      exact updateFirst_mem hfind

theorem noteUpdate_emptyFolderId_unsets_witness :
    (∃ n1, (notesPut storeAB "u1" noteA.id unsetFolderBody 9).1 =
        .json 200 n1 ∧ n1.folderId = none ∧
      n1 ∈ (notesPut storeAB "u1" noteA.id unsetFolderBody 9).2.notes) ∧
    (∃ n2, (notesPut storeAB "u1" noteA.id emptyPatchBody 9).1 =
        .json 200 n2 ∧ n2.folderId = some "ffffffffffff" ∧
      n2 ∈ (notesPut storeAB "u1" noteA.id emptyPatchBody 9).2.notes) :=
  noteUpdate_emptyFolderId_unsets storeAB "u1" noteA 9 "ffffffffffff"
    (by decide) (by decide) (by decide) (by decide) (by decide)

/-- **C2**: deleting an owned folder answers 204; afterwards no note was
deleted (the note count is preserved), every same-owner note that
referenced the folder is present with its folder reference unset — in
fact no note at all still references the folder — and the folder is no
longer resolvable by id lookup for any caller. -/
theorem folderDelete_cascades_unset (s : Store) (u : Id) (f : Folder)
    (hnd : (s.folders.map Folder.id).Nodup)
    (hmem : f ∈ s.folders) (hown : f.userId = u)
    (hv : isValidObjectId f.id = true) :
    (foldersDelete s u f.id).1 = .json 204 () ∧
    (foldersDelete s u f.id).2.notes.length = s.notes.length ∧
    (∀ n ∈ s.notes, n.userId = u → n.folderId = some f.id →
      { n with folderId := none } ∈ (foldersDelete s u f.id).2.notes) ∧
    (∀ n2 ∈ (foldersDelete s u f.id).2.notes, n2.folderId ≠ some f.id) ∧
    (∀ v, foldersGetOne (foldersDelete s u f.id).2 v f.id = .missing) := by
  have hpf : (f.id == f.id && f.userId == u) = true := by simp [hown]
  cases hfd : findOneDoc (fun g => g.id == f.id && g.userId == u) s.folders with
  | none =>
    have := findOneDoc_eq_none_iff.mp hfd f hmem
    rw [hpf] at this; cases this
  | some g =>
    have hred : foldersDelete s u f.id =
        (.json 204 (),
         { s with
           folders := deleteFirst (fun x => x.id == f.id && x.userId == u)
             s.folders
           notes := s.notes.map (fun n =>
             if n.folderId == some f.id then { n with folderId := none }
             else n) }) := by
      simp [foldersDelete, hv, hfd]
    have hkeyfree := deleteFirst_key_not_mem
      (p := fun x => x.id == f.id && x.userId == u) (k := f.id)
      Folder.id hnd hmem hpf
      (fun x hx => by
        simp only [Bool.and_eq_true, beq_iff_eq] at hx; exact hx.1)
    refine ⟨by rw [hred], by rw [hred]; simp, ?_, ?_, ?_⟩
    · intro n hn _ h2
      rw [hred]
      exact List.mem_map.mpr ⟨n, hn, by simp [h2]⟩
    · intro n2 hn2
      rw [hred] at hn2
      obtain ⟨m, _, heq⟩ := List.mem_map.mp hn2
      cases hif : m.folderId == some f.id with
      | true => rw [hif] at heq; simp at heq; rw [← heq]; simp
      | false =>
        rw [hif] at heq; simp at heq; rw [← heq]
        simpa [beq_eq_false_iff_ne] using hif
    · intro v
      rw [hred]
      have hnone : findOneDoc (fun x => x.id == f.id && x.userId == v)
          (deleteFirst (fun x => x.id == f.id && x.userId == u) s.folders) =
          none := by
        rw [findOneDoc_eq_none_iff]
        intro x hx
        have := hkeyfree x hx
        simp [beq_eq_false_iff_ne, this]
      simp [foldersGetOne, hv, hnone]

theorem folderDelete_cascades_unset_witness :
    (foldersDelete storeAB "u1" folderA.id).1 = .json 204 () ∧
    foldersGetOne (foldersDelete storeAB "u1" folderA.id).2 "u1" folderA.id =
      .missing ∧
    { noteA with folderId := none } ∈
      (foldersDelete storeAB "u1" folderA.id).2.notes :=
  ⟨(folderDelete_cascades_unset storeAB "u1" folderA (by decide) (by decide)
      (by decide) (by decide)).1,
   (folderDelete_cascades_unset storeAB "u1" folderA (by decide) (by decide)
      (by decide) (by decide)).2.2.2.2 "u1",
   (folderDelete_cascades_unset storeAB "u1" folderA (by decide) (by decide)
      (by decide) (by decide)).2.2.1 noteA (by decide) (by decide) (by decide)⟩

/-- **C3**: deleting an owned tag answers 204, and the notes collection
afterwards is exactly the old one with that single tag id pulled from
every tag set that contained it: a note not referencing the tag is
unchanged (all fields), and a note referencing it keeps every other field
— and every other tag id, in order — losing only the deleted id. -/
theorem tagDelete_pulls_only_that_tag (s : Store) (u : Id) (t : Tag)
    (hmem : t ∈ s.tags) (hown : t.userId = u)
    (hv : isValidObjectId t.id = true) :
    (tagsDelete s u t.id).1 = .json 204 () ∧
    (tagsDelete s u t.id).2.notes =
      s.notes.map (fun n =>
        if n.tags.contains t.id then
          { n with tags := n.tags.filter (fun x => x != t.id) }
        else n) ∧
    (∀ n ∈ s.notes, n.tags.contains t.id = false →
      n ∈ (tagsDelete s u t.id).2.notes) ∧
    (∀ n ∈ s.notes, n.tags.contains t.id = true →
      { n with tags := n.tags.filter (fun x => x != t.id) } ∈
        (tagsDelete s u t.id).2.notes) := by
  have hpt : (t.id == t.id && t.userId == u) = true := by simp [hown]
  cases hfd : findOneDoc (fun x => x.id == t.id && x.userId == u) s.tags with
  | none =>
    have := findOneDoc_eq_none_iff.mp hfd t hmem
    rw [hpt] at this; cases this
  | some g =>
    have hred : tagsDelete s u t.id =
        (.json 204 (),
         { s with
           tags := deleteFirst (fun x => x.id == t.id && x.userId == u) s.tags
           notes := s.notes.map (fun n =>
             if n.tags.contains t.id then
               { n with tags := n.tags.filter (fun x => x != t.id) }
             else n) }) := by
      simp [tagsDelete, hv, hfd]
    refine ⟨by rw [hred], by rw [hred], ?_, ?_⟩
    · intro n hn hno
      rw [hred]
      exact List.mem_map.mpr ⟨n, hn, by rw [if_neg (by simpa using hno)]⟩
    · intro n hn hyes
      rw [hred]
      exact List.mem_map.mpr ⟨n, hn, by rw [if_pos hyes]⟩

theorem tagDelete_pulls_only_that_tag_witness :
    (tagsDelete storeAB "u1" tagA.id).1 = .json 204 () ∧
    { noteA with tags := [] } ∈ (tagsDelete storeAB "u1" tagA.id).2.notes ∧
    noteB ∈ (tagsDelete storeAB "u1" tagA.id).2.notes :=
  ⟨(tagDelete_pulls_only_that_tag storeAB "u1" tagA (by decide) (by decide)
      (by decide)).1,
   by
    have h := (tagDelete_pulls_only_that_tag storeAB "u1" tagA (by decide)
      (by decide) (by decide)).2.2.2 noteA (by decide) (by decide)
    simpa using h,
   (tagDelete_pulls_only_that_tag storeAB "u1" tagA (by decide) (by decide)
      (by decide)).2.2.1 noteB (by decide) (by decide)⟩

/-- **C6**: creating or renaming a folder or tag to a name already used by
another entity of the same kind under the same owner fails with the
duplicate-name error ("… name already exists", the route's translation of
the store's duplicate-key fault) and the store is unchanged, while
creating the same name under an owner who does not use it succeeds —
uniqueness is per-owner, not global.  (The tag-rename case supplies the
caller's own `userId` in the body so the strict transfer guard passes.) -/
theorem name_uniqueness_per_owner (s : Store) (u u2 : Id) (nm : String)
    (freshId : Id) (now : Nat) (hnm : nm ≠ "") :
    (∀ f ∈ s.folders, f.name = nm → f.userId = u →
      foldersPost s u (some nm) freshId now =
        (.errorOut 400 "Folder name already exists", s)) ∧
    ((∀ g ∈ s.folders, g.userId = u2 → g.name ≠ nm) →
      (foldersPost s u2 (some nm) freshId now).1 =
        .json 201 { id := freshId, name := nm, userId := u2,
                    createdAt := now, updatedAt := now } ∧
      (foldersPost s u2 (some nm) freshId now).2.folders =
        s.folders ++ [{ id := freshId, name := nm, userId := u2,
                        createdAt := now, updatedAt := now }]) ∧
    (∀ f ∈ s.folders, f.name = nm → f.userId = u →
     ∀ g ∈ s.folders, g.userId = u → g.id ≠ f.id →
      isValidObjectId g.id = true →
      foldersPut s u g.id (some nm) none now =
        (.errorOut 400 "Folder name already exists", s)) ∧
    (∀ t ∈ s.tags, t.name = nm → t.userId = u →
      tagsPost s u (some nm) freshId now =
        (.errorOut 400 "Tag name already exists", s)) ∧
    ((∀ g ∈ s.tags, g.userId = u2 → g.name ≠ nm) →
      (tagsPost s u2 (some nm) freshId now).1 =
        .json 201 { id := freshId, name := nm, userId := u2,
                    createdAt := now, updatedAt := now } ∧
      (tagsPost s u2 (some nm) freshId now).2.tags =
        s.tags ++ [{ id := freshId, name := nm, userId := u2,
                     createdAt := now, updatedAt := now }]) ∧
    (∀ t ∈ s.tags, t.name = nm → t.userId = u →
     ∀ g ∈ s.tags, g.userId = u → g.id ≠ t.id →
      isValidObjectId g.id = true →
      tagsPut s u g.id (some nm) (some u) now =
        (.errorOut 400 "Tag name already exists", s)) := by
  have htr : truthy (some nm) = true := by simp [truthy, hnm]
  refine ⟨?_, ?_, ?_, ?_, ?_, ?_⟩
  · intro f hf h1 h2
    have hc : folderNameConflict s nm u none = true :=
      List.any_eq_true.mpr ⟨f, hf, by simp [h1, h2]⟩
    simp [foldersPost, htr, hc]
  · intro hno
    have hc : folderNameConflict s nm u2 none = false := by
      rw [folderNameConflict, List.any_eq_false]
      intro g hg
      by_cases hgn : g.name = nm
      · have : ¬ g.userId = u2 := fun h => hno g hg h hgn
        simp [this]
      · simp [hgn]
    constructor <;> simp [foldersPost, htr, hc]
  · intro f hf h1 h2 g hg hgu hgne hvg
    cases hfd : findOneDoc (fun x => x.id == g.id && x.userId == u)
        s.folders with
    | none =>
      have := findOneDoc_eq_none_iff.mp hfd g hg
      simp [hgu] at this
    | some m =>
      obtain ⟨_, hpm⟩ := findOneDoc_mem hfd
      simp only [Bool.and_eq_true, beq_iff_eq] at hpm
      have hmne : m.id ≠ f.id := hpm.1 ▸ hgne
      have hc : folderNameConflict s nm u (some m.id) = true :=
        List.any_eq_true.mpr ⟨f, hf, by simp [h1, h2, hmne]⟩
      simp [foldersPut, hvg, htr, truthy, hfd, hc, hnm]
  · intro t ht h1 h2
    have hc : tagNameConflict s nm u none = true :=
      List.any_eq_true.mpr ⟨t, ht, by simp [h1, h2]⟩
    simp [tagsPost, htr, hc]
  · intro hno
    have hc : tagNameConflict s nm u2 none = false := by
      rw [tagNameConflict, List.any_eq_false]
      intro g hg
      by_cases hgn : g.name = nm
      · have : ¬ g.userId = u2 := fun h => hno g hg h hgn
        simp [this]
      · simp [hgn]
    constructor <;> simp [tagsPost, htr, hc]
  · intro t ht h1 h2 g hg hgu hgne hvg
    cases hfd : findOneDoc (fun x => x.id == g.id) s.tags with
    | none =>
      have := findOneDoc_eq_none_iff.mp hfd g hg
      simp at this
    | some m =>
      obtain ⟨_, hpm⟩ := findOneDoc_mem hfd
      simp only [beq_iff_eq] at hpm
      have hmne : m.id ≠ t.id := by rw [hpm]; exact hgne
      have hc : tagNameConflict s nm u (some m.id) = true :=
        List.any_eq_true.mpr ⟨t, ht, by simp [h1, h2, hmne]⟩
      simp [tagsPut, hvg, htr, hfd, hc]

theorem name_uniqueness_per_owner_witness :
    foldersPost storeAB "u1" (some "Work") "fffffffffff3" 9 =
      (.errorOut 400 "Folder name already exists", storeAB) ∧
    (foldersPost storeAB "u2" (some "Work") "fffffffffff3" 9).1 =
      .json 201 { id := "fffffffffff3", name := "Work", userId := "u2",
                  createdAt := 9, updatedAt := 9 } ∧
    tagsPost storeAB "u1" (some "breaking") "ttttttttttt3" 9 =
      (.errorOut 400 "Tag name already exists", storeAB) ∧
    foldersPut storeAB "u1" folderB.id (some "Work") none 9 =
      (.errorOut 400 "Folder name already exists", storeAB) :=
  ⟨(name_uniqueness_per_owner storeAB "u1" "u2" "Work" "fffffffffff3" 9
      (by decide)).1 folderA (by decide) (by decide) (by decide),
   ((name_uniqueness_per_owner storeAB "u1" "u2" "Work" "fffffffffff3" 9
      (by decide)).2.1 (by decide)).1,
   (name_uniqueness_per_owner storeAB "u1" "u2" "breaking" "ttttttttttt3" 9
      (by decide)).2.2.2.1 tagA (by decide) (by decide) (by decide),
   (name_uniqueness_per_owner storeAB "u1" "u2" "Work" "fffffffffff3" 9
      (by decide)).2.2.1 folderA (by decide) (by decide) (by decide)
      folderB (by decide) (by decide) (by decide) (by decide)⟩

/-- Declarative reading of the search clause as built from the query
string: active exactly when `searchTerm` is present and non-empty. -/
theorem searchCond_if_iff (qs : Option String) (n : Note) :
    searchCond (if truthy qs then qs else none) n = true ↔
    ∀ t, qs = some t → t ≠ "" →
      (reTest t n.title || reTest t n.content) = true := by
  rcases qs with _ | t
  · simp [truthy, searchCond]
  · by_cases h : t = ""
    · subst h; simp [truthy, searchCond]
    · simp [truthy, searchCond, h]

theorem folderCond_if_iff (qf : Option String) (n : Note) :
    folderCond (if truthy qf then qf else none) n = true ↔
    ∀ fid, qf = some fid → fid ≠ "" → n.folderId = some fid := by
  rcases qf with _ | fid
  · simp [truthy, folderCond]
  · by_cases h : fid = ""
    · subst h; simp [truthy, folderCond]
    · simp [truthy, folderCond, h]

theorem tagCond_if_iff (qt : Option String) (n : Note) :
    tagCond (if truthy qt then qt else none) n = true ↔
    ∀ tid, qt = some tid → tid ≠ "" → n.tags.contains tid = true := by
  rcases qt with _ | tid
  · simp [truthy, tagCond]
  · by_cases h : tid = ""
    · subst h; simp [truthy, tagCond]
    · simp [truthy, tagCond, h]

/-- The filter built by `GET /api/notes` matches a document exactly when
the document is caller-owned and satisfies every active clause. -/
theorem matchesDoc_iff (u : Id) (q : NoteQuery) (n : Note) :
    (buildNoteFilter u q).matchesDoc n = true ↔
      (n.userId = u ∧
       (∀ t, q.searchTerm = some t → t ≠ "" →
         (reTest t n.title || reTest t n.content) = true) ∧
       (∀ fid, q.folderId = some fid → fid ≠ "" → n.folderId = some fid) ∧
       (∀ tid, q.tagId = some tid → tid ≠ "" →
         n.tags.contains tid = true)) := by
  unfold NoteFilter.matchesDoc buildNoteFilter
  rw [Bool.and_eq_true, Bool.and_eq_true, Bool.and_eq_true]
  dsimp only
  rw [searchCond_if_iff, folderCond_if_iff, tagCond_if_iff, beq_iff_eq]
  tauto

/-- A plain character is not the dot metacharacter. -/
theorem plainSearchChar_ne_dot {p : Char} (h : plainSearchChar p = true) :
    (p == '.') = false := by
  by_cases hd : p = '.'
  · subst hd; exact absurd h (by decide)
  · exact beq_eq_false_iff_ne.mpr hd

/-- On plain patterns, anchored regex matching is anchored literal
matching of the case-folded strings. -/
theorem matchHere_eq_litHere :
    ∀ ps cs : List Char, (∀ p ∈ ps, plainSearchChar p = true) →
      matchHere ps cs = litHere (ps.map Char.toLower) (cs.map Char.toLower)
  | [], _, _ => by rfl
  | _ :: _, [], _ => by rfl
  | p :: ps, c :: cs, hp => by
    have hd := plainSearchChar_ne_dot (hp p (List.mem_cons_self p ps))
    rw [matchHere, List.map_cons, List.map_cons, litHere, charMatchCI, hd,
      Bool.false_or,
      matchHere_eq_litHere ps cs (fun x hx => hp x (List.mem_cons_of_mem p hx))]

/-- On plain patterns, the regex search coincides with the case-folded
literal search. -/
theorem regexFindCI_eq_litFind (ps : List Char)
    (hp : ∀ p ∈ ps, plainSearchChar p = true) :
    ∀ cs : List Char,
      regexFindCI ps cs = litFind (ps.map Char.toLower) (cs.map Char.toLower)
  | [] => by
    rw [regexFindCI, List.map_nil, litFind,
      matchHere_eq_litHere ps [] hp, List.map_nil]
  | c :: cs => by
    rw [regexFindCI, List.map_cons, litFind,
      matchHere_eq_litHere ps (c :: cs) hp, List.map_cons,
      regexFindCI_eq_litFind ps hp cs]

/-- On a plain search term, the route's `new RegExp(term, 'i').test` is
exactly the spec's case-insensitive substring containment. -/
theorem reTest_eq_ciSubstring (t s : String)
    (h : plainSearchTerm t = true) : reTest t s = ciSubstring t s := by
  have hp : ∀ p ∈ t.toList, plainSearchChar p = true := by
    simpa [plainSearchTerm, List.all_eq_true] using h
  unfold reTest ciSubstring
  exact regexFindCI_eq_litFind t.toList hp s.toList

/-- **C9** (amended): restricted to search terms built of plain characters
(ASCII letters, digits, spaces — no regex metacharacters; on these
`new RegExp(term, 'i').test` coincides with case-insensitive substring
containment, while terms with metacharacters are instead read as regex
syntax, see the counterexample): `GET /api/notes` answers 200 with exactly
the caller-owned notes whose title or content case-insensitively contains
the term as a substring, filtered by exact `folderId`/`tagId` reference
match, ordered by `updatedAt` descending; with no filters exactly the
owned notes are returned; when nothing matches the result is the empty
list, not an error. -/
theorem notesSearch_plain_term_characterization (s : Store) (u : Id)
    (q : NoteQuery)
    (hplain : ∀ t, q.searchTerm = some t → plainSearchTerm t = true) :
    notesGetAll s u q = .json 200 (notesGetAll s u q).listBody ∧
    List.Sorted updatedAtDesc (notesGetAll s u q).listBody ∧
    (∀ n, n ∈ (notesGetAll s u q).listBody ↔
      (n ∈ s.notes ∧ n.userId = u ∧
       (∀ t, q.searchTerm = some t → t ≠ "" →
         (ciSubstring t n.title = true ∨ ciSubstring t n.content = true)) ∧
       (∀ fid, q.folderId = some fid → fid ≠ "" → n.folderId = some fid) ∧
       (∀ tid, q.tagId = some tid → tid ≠ "" →
         n.tags.contains tid = true))) ∧
    (q.searchTerm = none → q.folderId = none → q.tagId = none →
      ∀ n, n ∈ (notesGetAll s u q).listBody ↔ n ∈ s.notes ∧ n.userId = u) ∧
    ((∀ n ∈ s.notes, n.userId = u →
       ¬((∀ t, q.searchTerm = some t → t ≠ "" →
           (ciSubstring t n.title = true ∨ ciSubstring t n.content = true)) ∧
         (∀ fid, q.folderId = some fid → fid ≠ "" → n.folderId = some fid) ∧
         (∀ tid, q.tagId = some tid → tid ≠ "" →
           n.tags.contains tid = true))) →
      (notesGetAll s u q).listBody = []) := by
  have hmem : ∀ n, n ∈ (notesGetAll s u q).listBody ↔
      (n ∈ s.notes ∧ (buildNoteFilter u q).matchesDoc n = true) := by
    intro n
    simp only [notesGetAll, RouteResult.listBody]
    rw [List.mem_insertionSort, List.mem_filter]
  have hchar : ∀ n, n ∈ (notesGetAll s u q).listBody ↔
      (n ∈ s.notes ∧ n.userId = u ∧
       (∀ t, q.searchTerm = some t → t ≠ "" →
         (ciSubstring t n.title = true ∨ ciSubstring t n.content = true)) ∧
       (∀ fid, q.folderId = some fid → fid ≠ "" → n.folderId = some fid) ∧
       (∀ tid, q.tagId = some tid → tid ≠ "" →
         n.tags.contains tid = true)) := by
    intro n
    rw [hmem n, matchesDoc_iff]
    constructor
    · rintro ⟨h1, h2, h3, h4, h5⟩
      refine ⟨h1, h2, ?_, h4, h5⟩
      intro t hts htne
      have hr := h3 t hts htne
      rw [reTest_eq_ciSubstring t n.title (hplain t hts),
        reTest_eq_ciSubstring t n.content (hplain t hts)] at hr
      simpa [Bool.or_eq_true] using hr
    · rintro ⟨h1, h2, h3, h4, h5⟩
      refine ⟨h1, h2, ?_, h4, h5⟩
      intro t hts htne
      rw [reTest_eq_ciSubstring t n.title (hplain t hts),
        reTest_eq_ciSubstring t n.content (hplain t hts)]
      simpa [Bool.or_eq_true] using h3 t hts htne
  refine ⟨rfl, List.sorted_insertionSort updatedAtDesc _, hchar, ?_, ?_⟩
  · intro h1 h2 h3 n
    rw [hmem, matchesDoc_iff]
    simp [h1, h2, h3]
  · intro hnone
    rcases hemp : (notesGetAll s u q).listBody with _ | ⟨n0, rest⟩
    · rfl
    · exfalso
      have hn0 : n0 ∈ (notesGetAll s u q).listBody := by
        rw [hemp]; exact List.mem_cons_self _ _
      have hc := (hchar n0).mp hn0
      exact hnone n0 hc.1 hc.2.1 hc.2.2

theorem notesSearch_plain_term_characterization_witness :
    noteA ∈ (notesGetAll storeAB "u1"
      { searchTerm := some "gaga" }).listBody ∧
    List.Sorted updatedAtDesc
      (notesGetAll storeAB "u1" { searchTerm := some "gaga" }).listBody :=
  ⟨((notesSearch_plain_term_characterization storeAB "u1"
       { searchTerm := some "gaga" }
       (by intro t ht
           obtain rfl : t = "gaga" := (Option.some.inj ht).symm
           decide)).2.2.1 noteA).mpr
     ⟨by decide, by decide,
      by intro t ht htne
         obtain rfl : t = "gaga" := (Option.some.inj ht).symm
         right; decide,
      by intro fid ht; exact Option.noConfusion ht,
      by intro tid ht; exact Option.noConfusion ht⟩,
   (notesSearch_plain_term_characterization storeAB "u1"
       { searchTerm := some "gaga" }
       (by intro t ht
           obtain rfl : t = "gaga" := (Option.some.inj ht).symm
           decide)).2.1⟩

/-- **C9** (counterexample to the claim as stated): with
`searchTerm = "a.c"` the route returns the note titled `"abc"` — the dot
is a regex metacharacter matching any character — although `"a.c"` is not
a case-insensitive substring of either the title or the (empty) content.
So "returns exactly the notes whose title or content case-insensitively
contains the term as a substring" is false of the code. -/
theorem notesSearch_regex_not_substring :
    notesGetAll cexStore "u1" { searchTerm := some "a.c" } =
      .json 200 [cexNote] ∧
    ciSubstring "a.c" cexNote.title = false ∧
    ciSubstring "a.c" cexNote.content = false := by decide

end Noteful
